import Mathlib

/-!
Verification of the k6 crypto signing module against its specification.

The development shallowly embeds the two source files of the module:

* code.go: the binary codec (decodeBinary / decodeBinaryKnown /
  decodeBinaryDetect / decodeBytes / decodeHex / decodeBase64 / encodeBinary);
* the signing engine: one-shot Sign / Verify, the incremental Signer and
  Verifier, executeSign / executeVerify and the per-algorithm helpers.

Go byte slices are embedded as List Nat (each element a byte value below 256
where it matters), Go strings as Lean String, Go interface values that may
carry either bytes or a string as the Value type below, and fallible Go
functions as Except Failure. A failed Go type assertion (a runtime panic)
is kept distinct from an ordinary error return.

External collaborators (the Go standard library hash, RSA / DSA / ECDSA
primitives and the asn1 marshaller) are not part of the repository; they are
modelled from the specification's interface, and each such definition carries
a doc comment starting with "Modelled from the spec:".
-/

namespace k6

/-- Outcome of a fallible operation: an ordinary Go error carrying its
message, or a runtime panic from a failed dynamic type assertion. -/
inductive Failure where
  | goError (msg : String)
  | typeAssertPanic
  deriving DecidableEq, Repr

/-- A loosely typed script value reaching the module: either an already
decoded byte sequence or a string, mirroring the Go interface argument. -/
inductive Value where
  | bytes (bs : List Nat)
  | str (s : String)
  deriving DecidableEq, Repr

/-- Translation of decodeBytes in code.go: raw-byte interpretation succeeds
only when the input already is a byte sequence. -/
def decodeBytes : Value → Except Failure (List Nat)
  | .bytes bs => .ok bs
  | .str _ => .error (.goError "not a byte array")

/-- Hex value of one character, as accepted by the Go hex decoder:
digits, lowercase and uppercase letters a-f. -/
def hexVal (c : Char) : Option Nat :=
  if 48 ≤ c.toNat ∧ c.toNat ≤ 57 then some (c.toNat - 48)
  else if 97 ≤ c.toNat ∧ c.toNat ≤ 102 then some (c.toNat - 87)
  else if 65 ≤ c.toNat ∧ c.toNat ≤ 70 then some (c.toNat - 55)
  else none

/-- Lowercase hex digit character for a value below 16, as produced by the
Go hex encoder. -/
def hexDigit (n : Nat) : Char :=
  if n < 10 then Char.ofNat (48 + n) else Char.ofNat (87 + n)

/-- Hex decoding of a character list: pairs of hex digits become bytes,
an odd length or a non-hex character is an error (Go hex.DecodeString). -/
def hexDecodeChars : List Char → Except Failure (List Nat)
  | [] => .ok []
  | [_] => .error (.goError "encoding/hex: odd length hex string")
  | c1 :: c2 :: rest =>
    match hexVal c1, hexVal c2 with
    | some hi, some lo =>
      match hexDecodeChars rest with
      | .ok tail => .ok ((hi * 16 + lo) :: tail)
      | .error e => .error e
    | _, _ => .error (.goError "encoding/hex: invalid byte")

/-- Hex encoding of a byte list, two lowercase digits per byte
(Go hex.EncodeToString). -/
def hexEncodeChars : List Nat → List Char
  | [] => []
  | b :: rest => hexDigit (b / 16) :: hexDigit (b % 16) :: hexEncodeChars rest

/-- Translation of decodeHex in code.go: the input must be a string, which
is then hex decoded. -/
def decodeHex : Value → Except Failure (List Nat)
  | .bytes _ => .error (.goError "not a hex string")
  | .str s => hexDecodeChars s.data

/-- Character of the standard base64 alphabet for a value below 64. -/
def b64Char (n : Nat) : Char :=
  if n < 26 then Char.ofNat (65 + n)
  else if n < 52 then Char.ofNat (97 + (n - 26))
  else if n < 62 then Char.ofNat (48 + (n - 52))
  else if n = 62 then '+'
  else '/'

/-- Value of a standard-alphabet base64 data character. -/
def b64Val (c : Char) : Option Nat :=
  if 65 ≤ c.toNat ∧ c.toNat ≤ 90 then some (c.toNat - 65)
  else if 97 ≤ c.toNat ∧ c.toNat ≤ 122 then some (c.toNat - 97 + 26)
  else if 48 ≤ c.toNat ∧ c.toNat ≤ 57 then some (c.toNat - 48 + 52)
  else if c = '+' then some 62
  else if c = '/' then some 63
  else none

/-- Base64 encoding with standard alphabet and padding
(Go base64.StdEncoding.EncodeToString). -/
def b64EncodeChars : List Nat → List Char
  | [] => []
  | [b1] => [b64Char (b1 / 4), b64Char (b1 % 4 * 16), '=', '=']
  | [b1, b2] => [b64Char (b1 / 4), b64Char (b1 % 4 * 16 + b2 / 16),
      b64Char (b2 % 16 * 4), '=']
  | b1 :: b2 :: b3 :: rest =>
    b64Char (b1 / 4) :: b64Char (b1 % 4 * 16 + b2 / 16) ::
      b64Char (b2 % 16 * 4 + b3 / 64) :: b64Char (b3 % 64) ::
        b64EncodeChars rest

/-- Base64 decoding of four-character quantums with padding only in a final
quantum, as the Go standard decoder accepts (trailing bits of a padded
quantum are not checked, matching Go). -/
def b64DecodeChars : List Char → Except Failure (List Nat)
  | [] => .ok []
  | c1 :: c2 :: c3 :: c4 :: rest =>
    match b64Val c1, b64Val c2 with
    | some v1, some v2 =>
      if c3 = '=' then
        if c4 = '=' ∧ rest = [] then .ok [v1 * 4 + v2 / 16]
        else .error (.goError "illegal base64 data")
      else
        match b64Val c3 with
        | some v3 =>
          if c4 = '=' then
            if rest = [] then .ok [v1 * 4 + v2 / 16, v2 % 16 * 16 + v3 / 4]
            else .error (.goError "illegal base64 data")
          else
            match b64Val c4 with
            | some v4 =>
              match b64DecodeChars rest with
              | .ok tail =>
                .ok ((v1 * 4 + v2 / 16) :: (v2 % 16 * 16 + v3 / 4) ::
                  (v3 % 4 * 64 + v4) :: tail)
              | .error e => .error e
            | none => .error (.goError "illegal base64 data")
        | none => .error (.goError "illegal base64 data")
    | _, _ => .error (.goError "illegal base64 data")
  | _ => .error (.goError "illegal base64 data")

/-- Carriage returns and newlines are ignored by the Go base64 decoder;
every other character takes part in decoding. -/
def b64Keep (c : Char) : Bool :=
  !(c = '\r' || c = '\n')

/-- Translation of decodeBase64 in code.go: the input must be a string,
which is then base64 decoded with Go semantics. -/
def decodeBase64 : Value → Except Failure (List Nat)
  | .bytes _ => .error (.goError "not a base64 string")
  | .str s => b64DecodeChars (s.data.filter b64Keep)

/-- Translation of decodeBinaryKnown in code.go: dispatch on an explicit
format name, any other name failing as an unsupported encoding. -/
def decodeBinaryKnown (encoded : Value) (format : String) :
    Except Failure (List Nat) :=
  match format with
  | "binary" => decodeBytes encoded
  | "hex" => decodeHex encoded
  | "base64" => decodeBase64 encoded
  | _ => .error (.goError ("unsupported binary encoding: " ++ format))

/-- Translation of decodeBinaryDetect in code.go: try raw bytes, then hex,
then base64; the first success wins. -/
def decodeBinaryDetect (encoded : Value) : Except Failure (List Nat) :=
  match decodeBytes encoded with
  | .ok decoded => .ok decoded
  | .error _ =>
    match decodeHex encoded with
    | .ok decoded => .ok decoded
    | .error _ =>
      match decodeBase64 encoded with
      | .ok decoded => .ok decoded
      | .error _ => .error (.goError "unrecognized binary encoding")

/-- Translation of decodeBinary in code.go: an empty format auto-detects,
a non-empty format is dispatched explicitly. -/
def decodeBinary (encoded : Value) (format : String) :
    Except Failure (List Nat) :=
  if format ≠ "" then decodeBinaryKnown encoded format
  else decodeBinaryDetect encoded

/-- Translation of encodeBinary in code.go: empty format and binary return
the bytes unchanged, hex and base64 produce text, anything else is an
unsupported encoding. -/
def encodeBinary (value : List Nat) (format : String) :
    Except Failure Value :=
  match format with
  | "" => .ok (.bytes value)
  | "binary" => .ok (.bytes value)
  | "hex" => .ok (.str (String.mk (hexEncodeChars value)))
  | "base64" => .ok (.str (String.mk (b64EncodeChars value)))
  | _ => .error (.goError ("unsupported binary encoding: " ++ format))

/-! Key material, mirroring the Go types carried by the signing engine. -/

namespace rsa

/-- Counterpart of the Go rsa.PublicKey value carried inside a parsed key:
modulus and exponent. -/
structure PublicKey where
  N : Nat
  E : Nat
  deriving DecidableEq, Repr

/-- Counterpart of the Go rsa.PrivateKey value: the embedded public key and
the private exponent. -/
structure PrivateKey where
  PublicKey : PublicKey
  D : Nat
  deriving DecidableEq, Repr

/-- Counterpart of the Go rsa.PSSOptions value built by decodePssOptions;
only the salt length is ever set by the module. -/
structure PSSOptions where
  SaltLength : Int
  deriving DecidableEq, Repr

end rsa

namespace dsa

/-- Counterpart of the Go dsa.Parameters value: the domain parameters. -/
structure Parameters where
  P : Nat
  Q : Nat
  G : Nat
  deriving DecidableEq, Repr

/-- Counterpart of the Go dsa.PublicKey value. -/
structure PublicKey where
  Parameters : Parameters
  Y : Nat
  deriving DecidableEq, Repr

/-- Counterpart of the Go dsa.PrivateKey value. -/
structure PrivateKey where
  PublicKey : PublicKey
  X : Nat
  deriving DecidableEq, Repr

end dsa

namespace ecdsa

/-- Counterpart of the Go ecdsa.PublicKey value: a named curve and the
point coordinates. -/
structure PublicKey where
  Curve : String
  X : Nat
  Y : Nat
  deriving DecidableEq, Repr

/-- Counterpart of the Go ecdsa.PrivateKey value. -/
structure PrivateKey where
  PublicKey : PublicKey
  D : Nat
  deriving DecidableEq, Repr

end ecdsa

/-- Dynamic value held in the Key field of a parsed key, mirroring the Go
interface value on which the engine performs type assertions. -/
inductive KeyValue where
  | rsaPub (k : rsa.PublicKey)
  | rsaPriv (k : rsa.PrivateKey)
  | dsaPub (k : dsa.PublicKey)
  | dsaPriv (k : dsa.PrivateKey)
  | ecdsaPub (k : ecdsa.PublicKey)
  | ecdsaPriv (k : ecdsa.PrivateKey)
  deriving DecidableEq, Repr

namespace x509

/-- Counterpart of the x509.PublicKey wrapper: an algorithm tag naming one
of RSA, DSA, ECDSA and the dynamically typed key value. -/
structure PublicKey where
  Algorithm : String
  Key : KeyValue
  deriving DecidableEq, Repr

/-- Counterpart of the x509.PrivateKey wrapper. -/
structure PrivateKey where
  Algorithm : String
  Key : KeyValue
  deriving DecidableEq, Repr

end x509

/-- Translation of the SigningOptions map: a string-keyed option bag.
An association list stands in for the Go map. -/
abbrev SigningOptions := List (String × String)

/-- Lookup in a SigningOptions bag with Go map semantics: a missing key
yields the zero value, the empty string. -/
def optGet (options : SigningOptions) (key : String) : String :=
  match options.find? (fun p => p.1 == key) with
  | some p => p.2
  | none => ""

/-- Translation of decodeInt: strconv.ParseInt with base 10 and 64 bits,
any parse failure collapsing to zero. decDigitsVal is the digits-only
kernel, refusing the empty string and any non-digit character. -/
def decDigitsVal (cs : List Char) : Option Nat :=
  if cs = [] then none
  else
    cs.foldl
      (fun acc c =>
        acc.bind fun n =>
          if 48 ≤ c.toNat ∧ c.toNat ≤ 57 then some (n * 10 + (c.toNat - 48))
          else none)
      (some 0)

/-- Signed 64-bit decimal parse, mirroring Go strconv.ParseInt with base 10
and bit size 64: an optional sign, a nonempty run of digits, and a range
check against the int64 bounds. -/
def parseInt64 (s : String) : Option Int :=
  match s.data with
  | '+' :: ds =>
    (decDigitsVal ds).bind fun n =>
      if n ≤ 2 ^ 63 - 1 then some (n : Int) else none
  | '-' :: ds =>
    (decDigitsVal ds).bind fun n =>
      if n ≤ 2 ^ 63 then some (-(n : Int)) else none
  | ds =>
    (decDigitsVal ds).bind fun n =>
      if n ≤ 2 ^ 63 - 1 then some (n : Int) else none

/-- Translation of decodeInt: a failed parse returns zero. -/
def decodeInt (encoded : String) : Int :=
  (parseInt64 encoded).getD 0

/-- Translation of decodePssOptions: the salt length option parsed as a
decimal integer, zero when absent or malformed. -/
def decodePssOptions (options : SigningOptions) : rsa.PSSOptions :=
  { SaltLength := decodeInt (optGet options "saltLength") }

/-! External collaborators of the signing engine, modelled from the spec. -/

/-- Go crypto.Hash is an integer enumeration of digest functions. -/
abbrev GoHash := Nat

/-- Modelled from the spec: decodeFunction (in the repository but outside
the provided sources) resolves a caller-supplied digest name from the fixed
supported set (md5, sha1, sha256, sha384, sha512) to a crypto.Hash value and
fails with an unsupported-digest error for every other name. -/
def decodeFunction (functionEncoded : String) : Except Failure GoHash :=
  match functionEncoded with
  | "md5" => .ok 2
  | "sha1" => .ok 3
  | "sha256" => .ok 5
  | "sha384" => .ok 6
  | "sha512" => .ok 7
  | _ => .error (.goError ("unsupported hash function: " ++ functionEncoded))

/-- Modelled from the spec: the digest computation itself is an external
collaborator (makeHasher and the hashing module are outside the provided
sources), specified only as a function from a digest name and message bytes
to digest bytes. It is modelled as an ideal, collision-free digest: the
identity on the message, which is injective for each fixed name. -/
def digestOf (_functionEncoded : String) (plaintext : List Nat) : List Nat :=
  plaintext

/-- Translation of hashPlaintext: digest the plaintext with the named
function. The dynamic type check on the hasher result cannot fail in the
model, since the modelled digest always returns bytes. -/
def hashPlaintext (functionEncoded : String) (plaintext : List Nat) :
    Except Failure (List Nat) :=
  .ok (digestOf functionEncoded plaintext)

/-- Injective packing of a byte list into one natural number, used by the
ideal signature primitives to bind a signature to a digest. -/
def listToNat (bs : List Nat) : Nat :=
  bs.foldr (fun b acc => Nat.pair b acc + 1) 0

/-- Little-endian base-256 digits of a number, via a structural fuel so the
definition evaluates inside the kernel; the fuel is the number itself. -/
def natDigitsAux : Nat → Nat → List Nat
  | _, 0 => []
  | 0, _ => []
  | fuel + 1, n + 1 => (n + 1) % 256 :: natDigitsAux fuel ((n + 1) / 256)

/-- Minimal little-endian base-256 digit list of a number. -/
def natDigits (n : Nat) : List Nat :=
  natDigitsAux n n

/-- Value of a little-endian base-256 digit list. -/
def natFromDigits (ds : List Nat) : Nat :=
  ds.foldr (fun d acc => d + 256 * acc) 0

/-- Length-prefixed encoding of one integer inside the modelled DER
sequence. -/
def encNat (n : Nat) : List Nat :=
  (natDigits n).length :: natDigits n

/-- Modelled from the spec: asn1.Marshal of a two-integer structure (the
DER SEQUENCE of two INTEGERs holding a DSA or ECDSA signature) is an
external collaborator; it is modelled as a sequence tag byte followed by
the two length-prefixed integers. -/
def asn1Marshal (sig : Nat × Nat) : List Nat :=
  48 :: encNat sig.1 ++ encNat sig.2

/-- Modelled from the spec: asn1.Unmarshal of the same structure. The
source ignores the unconsumed remainder returned by the Go unmarshaller,
so trailing bytes after the second integer are tolerated here as well;
any other malformation fails. -/
def asn1Unmarshal (bs : List Nat) : Option (Nat × Nat) :=
  match bs with
  | 48 :: len1 :: rest =>
    if len1 ≤ rest.length then
      match rest.drop len1 with
      | len2 :: rest2 =>
        if len2 ≤ rest2.length then
          some (natFromDigits (rest.take len1), natFromDigits (rest2.take len2))
        else none
      | [] => none
    else none
  | _ => none

/-! Ideal cryptographic primitives, modelled from the spec, and the
per-algorithm signing and verification helpers translated from the
source around them. -/

/-- Modelled from the spec: the byte form of an RSA PKCS#1 v1.5 signature
produced by the external rsa.SignPKCS1v15 primitive. PKCS#1 v1.5 signing is
deterministic in the key, digest function and digest; the model binds
exactly those, so the matching verifier accepts precisely this value. -/
def pkcsSigBytes (signer : rsa.PublicKey) (function : GoHash)
    (digest : List Nat) : List Nat :=
  0 :: signer.N :: signer.E :: function :: digest

/-- Modelled from the spec: the external rsa.VerifyPKCS1v15 primitive,
true exactly on the signature bound to this key, digest function and
digest. -/
def rsaVerifyPKCSCore (signer : rsa.PublicKey) (function : GoHash)
    (digest : List Nat) (signature : List Nat) : Bool :=
  signature = pkcsSigBytes signer function digest

/-- Modelled from the spec: the byte form of an RSA-PSS signature produced
by the external rsa.SignPSS primitive; PSS is randomized, so the salt drawn
from the random source is part of the signature value. -/
def pssSigBytes (signer : rsa.PublicKey) (function : GoHash)
    (saltLength : Nat) (nonce : Nat) (digest : List Nat) : List Nat :=
  1 :: signer.N :: signer.E :: function :: saltLength :: nonce :: digest

/-- Modelled from the spec: the external rsa.VerifyPSS primitive, true
exactly on a signature bound to this key, digest function and digest,
whatever salt and randomness went into producing it (the Go verifier with
the module's configuration recovers the salt from the signature). -/
def rsaVerifyPSSCore (signer : rsa.PublicKey) (function : GoHash)
    (digest : List Nat) (signature : List Nat)
    (_config : rsa.PSSOptions) : Bool :=
  match signature with
  | 1 :: n :: e :: f :: _salt :: _nonce :: d =>
    n = signer.N ∧ e = signer.E ∧ f = function ∧ d = digest
  | _ => false

/-- Modelled from the spec: the external randomized dsa.Sign primitive over
a digest, producing the integer pair (r, s). The model binds s to the
public key and the digest and lets r carry the randomness. -/
def dsaSignCore (signer : dsa.PrivateKey) (digest : List Nat)
    (nonce : Nat) : Nat × Nat :=
  (nonce, Nat.pair signer.PublicKey.Y (listToNat digest))

/-- Modelled from the spec: the external dsa.Verify primitive, true exactly
when s is bound to this public key and digest. -/
def dsaVerifyCore (signer : dsa.PublicKey) (digest : List Nat)
    (_r s : Nat) : Bool :=
  s = Nat.pair signer.Y (listToNat digest)

/-- Modelled from the spec: the external randomized ecdsa.Sign primitive. -/
def ecdsaSignCore (signer : ecdsa.PrivateKey) (digest : List Nat)
    (nonce : Nat) : Nat × Nat :=
  (nonce, Nat.pair (Nat.pair signer.PublicKey.X signer.PublicKey.Y)
    (listToNat digest))

/-- Modelled from the spec: the external ecdsa.Verify primitive. -/
def ecdsaVerifyCore (signer : ecdsa.PublicKey) (digest : List Nat)
    (_r s : Nat) : Bool :=
  s = Nat.pair (Nat.pair signer.X signer.Y) (listToNat digest)

/-- Translation of verifyPKCS: the primitive's error outcome is collapsed
to a false verdict. -/
def verifyPKCS (signer : rsa.PublicKey) (function : GoHash)
    (digest : List Nat) (signature : List Nat) : Bool :=
  rsaVerifyPKCSCore signer function digest signature

/-- Translation of verifyPSS: options are decoded into a PSS configuration
and the primitive's error outcome is collapsed to a false verdict. -/
def verifyPSS (signer : rsa.PublicKey) (function : GoHash)
    (digest : List Nat) (signature : List Nat)
    (options : SigningOptions) : Bool :=
  rsaVerifyPSSCore signer function digest signature (decodePssOptions options)

/-- Translation of verifyRSA: dispatch on the type option, empty selecting
PKCS#1 v1.5, pss selecting PSS, anything else an unsupported type error. -/
def verifyRSA (signer : rsa.PublicKey) (function : GoHash)
    (digest : List Nat) (signature : List Nat)
    (options : SigningOptions) : Except Failure Bool :=
  match optGet options "type" with
  | "" => .ok (verifyPKCS signer function digest signature)
  | "pss" => .ok (verifyPSS signer function digest signature options)
  | t => .error (.goError ("unsupported type: " ++ t))

/-- Translation of verifyDSA: unmarshal the DER pair, failing on a corrupt
encoding, then check the pair with the DSA primitive. -/
def verifyDSA (signer : dsa.PublicKey) (digest : List Nat)
    (signatureDer : List Nat) : Except Failure Bool :=
  match asn1Unmarshal signatureDer with
  | none => .error (.goError "asn1: structure error")
  | some (r, s) => .ok (dsaVerifyCore signer digest r s)

/-- Translation of verifyECDSA. -/
def verifyECDSA (signer : ecdsa.PublicKey) (digest : List Nat)
    (signatureDer : List Nat) : Except Failure Bool :=
  match asn1Unmarshal signatureDer with
  | none => .error (.goError "asn1: structure error")
  | some (r, s) => .ok (ecdsaVerifyCore signer digest r s)

/-- Translation of executeVerify: dispatch on the algorithm tag, with a
dynamic type assertion on the carried key value at each branch, and an
invalid-public-key error for any other tag. -/
def executeVerify (signer : x509.PublicKey) (function : GoHash)
    (digest : List Nat) (signature : List Nat)
    (options : SigningOptions) : Except Failure Bool :=
  match signer.Algorithm with
  | "DSA" =>
    match signer.Key with
    | .dsaPub key => verifyDSA key digest signature
    | _ => .error .typeAssertPanic
  | "ECDSA" =>
    match signer.Key with
    | .ecdsaPub key => verifyECDSA key digest signature
    | _ => .error .typeAssertPanic
  | "RSA" =>
    match signer.Key with
    | .rsaPub key => verifyRSA key function digest signature options
    | _ => .error .typeAssertPanic
  | _ => .error (.goError "invalid public key")

/-- Translation of signPKCS around the modelled primitive; the signing
failure of the primitive (a modulus too small for the digest) is outside
the ideal model and never occurs here. -/
def signPKCS (signer : rsa.PrivateKey) (function : GoHash)
    (digest : List Nat) : Except Failure (List Nat) :=
  .ok (pkcsSigBytes signer.PublicKey function digest)

/-- Translation of signPSS: options are decoded into a PSS configuration
whose salt length enters the signature, with fresh randomness. -/
def signPSS (signer : rsa.PrivateKey) (function : GoHash)
    (digest : List Nat) (options : SigningOptions) (nonce : Nat) :
    Except Failure (List Nat) :=
  let config := decodePssOptions options
  .ok (pssSigBytes signer.PublicKey function config.SaltLength.toNat
    nonce digest)

/-- Translation of signRSA: dispatch on the type option, empty selecting
PKCS#1 v1.5, pss selecting PSS, anything else an unsupported type error. -/
def signRSA (signer : rsa.PrivateKey) (function : GoHash)
    (digest : List Nat) (options : SigningOptions) (nonce : Nat) :
    Except Failure (List Nat) :=
  match optGet options "type" with
  | "" => signPKCS signer function digest
  | "pss" => signPSS signer function digest options nonce
  | t => .error (.goError ("unsupported type: " ++ t))

/-- Translation of signDSA: sign the digest with the randomized DSA
primitive and marshal the resulting pair as DER. -/
def signDSA (signer : dsa.PrivateKey) (digest : List Nat) (nonce : Nat) :
    Except Failure (List Nat) :=
  .ok (asn1Marshal (dsaSignCore signer digest nonce))

/-- Translation of signECDSA. -/
def signECDSA (signer : ecdsa.PrivateKey) (digest : List Nat)
    (nonce : Nat) : Except Failure (List Nat) :=
  .ok (asn1Marshal (ecdsaSignCore signer digest nonce))

/-- Translation of executeSign: dispatch on the algorithm tag with a
dynamic type assertion at each branch, an invalid-private-key error for any
other tag, and the produced signature encoded in the requested output
format. The nonce argument threads the random source consumed by the
randomized primitives. -/
def executeSign (signer : x509.PrivateKey) (function : GoHash)
    (digest : List Nat) (format : String) (options : SigningOptions)
    (nonce : Nat) : Except Failure Value :=
  let signature : Except Failure (List Nat) :=
    match signer.Algorithm with
    | "DSA" =>
      match signer.Key with
      | .dsaPriv key => signDSA key digest nonce
      | _ => .error .typeAssertPanic
    | "ECDSA" =>
      match signer.Key with
      | .ecdsaPriv key => signECDSA key digest nonce
      | _ => .error .typeAssertPanic
    | "RSA" =>
      match signer.Key with
      | .rsaPriv key => signRSA key function digest options nonce
      | _ => .error .typeAssertPanic
    | _ => .error (.goError "invalid private key")
  match signature with
  | .error e => .error e
  | .ok sig => encodeBinary sig format

/-- Translation of validatePublicKey: the algorithm tag must be one of the
three supported names and the carried value must have the matching dynamic
type. The RSA branch reports the message found in the source, which reads
invalid DSA public key. -/
def validatePublicKey (key : x509.PublicKey) : Except Failure Unit :=
  match key.Algorithm with
  | "DSA" =>
    match key.Key with
    | .dsaPub _ => .ok ()
    | _ => .error (.goError "invalid DSA public key")
  | "ECDSA" =>
    match key.Key with
    | .ecdsaPub _ => .ok ()
    | _ => .error (.goError "invalid ECDSA public key")
  | "RSA" =>
    match key.Key with
    | .rsaPub _ => .ok ()
    | _ => .error (.goError "invalid DSA public key")
  | _ => .error (.goError "invalid public key")

/-- Translation of validatePrivateKey. -/
def validatePrivateKey (key : x509.PrivateKey) : Except Failure Unit :=
  match key.Algorithm with
  | "DSA" =>
    match key.Key with
    | .dsaPriv _ => .ok ()
    | _ => .error (.goError "invalid DSA private key")
  | "ECDSA" =>
    match key.Key with
    | .ecdsaPriv _ => .ok ()
    | _ => .error (.goError "invalid ECDSA private key")
  | "RSA" =>
    match key.Key with
    | .rsaPriv _ => .ok ()
    | _ => .error (.goError "invalid RSA private key")
  | _ => .error (.goError "invalid private key")

/-- Translation of decodeSignature: auto-detect decoding with a wrapped
error message. -/
def decodeSignature (encoded : Value) : Except Failure (List Nat) :=
  match decodeBinaryDetect encoded with
  | .ok decoded => .ok decoded
  | .error (.goError msg) =>
    .error (.goError ("could not decode signature: " ++ msg))
  | .error e => .error e

/-- Translation of decodePlaintext: auto-detect decoding with a wrapped
error message. -/
def decodePlaintext (encoded : Value) : Except Failure (List Nat) :=
  match decodeBinaryDetect encoded with
  | .ok decoded => .ok decoded
  | .error (.goError msg) =>
    .error (.goError ("could not decode data: " ++ msg))
  | .error e => .error e

/-! One-shot operations and the incremental signer and verifier. The Go
methods throw into the script runtime on error; the embedding surfaces the
same failure through Except. A method that mutates its receiver returns the
new receiver state; Sign and Verify return the receiver unchanged, since
the source methods write no field of it. -/

/-- Translation of prepareVerify: validate the key, decode the digest
function, decode and hash the plaintext, decode the signature. -/
def prepareVerify (signer : x509.PublicKey) (functionEncoded : String)
    (plaintextEncoded : Value) (signatureEncoded : Value) :
    Except Failure (GoHash × List Nat × List Nat) := do
  let _ ← validatePublicKey signer
  let function ← decodeFunction functionEncoded
  let plaintext ← decodePlaintext plaintextEncoded
  let digest ← hashPlaintext functionEncoded plaintext
  let signature ← decodeSignature signatureEncoded
  .ok (function, digest, signature)

/-- Translation of prepareSign. -/
def prepareSign (signer : x509.PrivateKey) (functionEncoded : String)
    (plaintextEncoded : Value) : Except Failure (GoHash × List Nat) := do
  let _ ← validatePrivateKey signer
  let function ← decodeFunction functionEncoded
  let plaintext ← decodePlaintext plaintextEncoded
  let digest ← hashPlaintext functionEncoded plaintext
  .ok (function, digest)

/-- Translation of the one-shot Crypto.Verify method. -/
def Crypto.Verify (signer : x509.PublicKey) (functionEncoded : String)
    (plaintextEncoded : Value) (signatureEncoded : Value)
    (options : SigningOptions) : Except Failure Bool := do
  let (function, digest, signature) ←
    prepareVerify signer functionEncoded plaintextEncoded signatureEncoded
  executeVerify signer function digest signature options

/-- Translation of the one-shot Crypto.Sign method. -/
def Crypto.Sign (signer : x509.PrivateKey) (functionEncoded : String)
    (plaintextEncoded : Value) (format : String)
    (options : SigningOptions) (nonce : Nat) : Except Failure Value := do
  let (function, digest) ←
    prepareSign signer functionEncoded plaintextEncoded
  executeSign signer function digest format options nonce

/-- Translation of the Verifier struct: the chunked verification context,
without the script-runtime handle. -/
structure Verifier where
  function : GoHash
  functionEncoded : String
  options : SigningOptions
  plaintext : List Nat
  deriving DecidableEq, Repr

/-- Translation of the Signer struct: the chunked signing context. -/
structure Signer where
  function : GoHash
  functionEncoded : String
  options : SigningOptions
  plaintext : List Nat
  deriving DecidableEq, Repr

/-- Translation of Crypto.CreateVerify: decode the digest function and
start with an empty plaintext buffer. -/
def Crypto.CreateVerify (functionEncoded : String)
    (options : SigningOptions) : Except Failure Verifier := do
  let function ← decodeFunction functionEncoded
  .ok { function := function, functionEncoded := functionEncoded,
        options := options, plaintext := [] }

/-- Translation of Crypto.CreateSign. -/
def Crypto.CreateSign (functionEncoded : String)
    (options : SigningOptions) : Except Failure Signer := do
  let function ← decodeFunction functionEncoded
  .ok { function := function, functionEncoded := functionEncoded,
        options := options, plaintext := [] }

/-- Translation of Verifier.Update: decode the addition and append it to
the accumulated plaintext. -/
def Verifier.Update (verifier : Verifier) (additionEncoded : Value)
    (format : String) : Except Failure Verifier :=
  match decodeBinary additionEncoded format with
  | .error e => .error e
  | .ok addition =>
    .ok { verifier with plaintext := verifier.plaintext ++ addition }

/-- Translation of Signer.Update. -/
def Signer.Update (signer : Signer) (additionEncoded : Value)
    (format : String) : Except Failure Signer :=
  match decodeBinary additionEncoded format with
  | .error e => .error e
  | .ok addition =>
    .ok { signer with plaintext := signer.plaintext ++ addition }

/-- Translation of Verifier.Verify: decode the signature, hash the
accumulated plaintext and delegate to executeVerify. No field of the
receiver is written, so the unchanged context is returned alongside the
verdict. Note the method does not validate the key before dispatch. -/
def Verifier.Verify (verifier : Verifier) (signer : x509.PublicKey)
    (signatureEncoded : Value) : Except Failure (Bool × Verifier) := do
  let signature ← decodeSignature signatureEncoded
  let digest ← hashPlaintext verifier.functionEncoded verifier.plaintext
  let verified ← executeVerify signer verifier.function digest signature
    verifier.options
  .ok (verified, verifier)

/-- Translation of Signer.Sign: hash the accumulated plaintext and delegate
to executeSign. No field of the receiver is written, so the unchanged
context is returned alongside the signature. Note the method does not
validate the key before dispatch. -/
def Signer.Sign (signer : Signer) (key : x509.PrivateKey)
    (format : String) (nonce : Nat) : Except Failure (Value × Signer) := do
  let digest ← hashPlaintext signer.functionEncoded signer.plaintext
  let signature ← executeSign key signer.function digest format
    signer.options nonce
  .ok (signature, signer)

/-- Alteration of a message by exactly one byte: the lengths agree, one
position differs, every other position agrees. -/
def oneByteAltered (msg msgA : List Nat) : Prop :=
  msgA.length = msg.length
    ∧ ∃ i, i < msg.length ∧ msgA[i]? ≠ msg[i]?
      ∧ ∀ j, j < msg.length → j ≠ i → msgA[j]? = msg[j]?

/-! Codec round-trip lemmas. -/

theorem hexVal_hexDigit : ∀ d : Nat, d < 16 → hexVal (hexDigit d) = some d := by
  decide

theorem hexDecode_hexEncode (bs : List Nat) (h : ∀ b ∈ bs, b < 256) :
    hexDecodeChars (hexEncodeChars bs) = .ok bs := by
  induction bs with
  | nil => rfl
  | cons b rest ih =>
    have hb : b < 256 := h b (List.mem_cons_self ..)
    have h1 : b / 16 < 16 := by omega
    have h2 : b % 16 < 16 := by omega
    simp only [hexEncodeChars, hexDecodeChars, hexVal_hexDigit _ h1,
      hexVal_hexDigit _ h2, ih fun x hx => h x (List.mem_cons_of_mem _ hx)]
    rw [show b / 16 * 16 + b % 16 = b by omega]

theorem b64Val_b64Char : ∀ n : Nat, n < 64 → b64Val (b64Char n) = some n := by
  decide

theorem b64Char_ne_pad : ∀ n : Nat, n < 64 → b64Char n ≠ '=' := by
  decide

theorem b64Keep_b64Char : ∀ n : Nat, n < 64 → b64Keep (b64Char n) = true := by
  decide

theorem b64Keep_b64EncodeChars (bs : List Nat) (h : ∀ b ∈ bs, b < 256) :
    ∀ c ∈ b64EncodeChars bs, b64Keep c = true := by
  induction bs using b64EncodeChars.induct with
  | case1 => intro c hc; cases hc
  | case2 b1 =>
    have hb1 : b1 < 256 := h b1 (by simp)
    intro c hc
    simp only [b64EncodeChars, List.mem_cons, List.not_mem_nil, or_false] at hc
    rcases hc with rfl | rfl | rfl | rfl
    · exact b64Keep_b64Char _ (by omega)
    · exact b64Keep_b64Char _ (by omega)
    · rfl
    · rfl
  | case3 b1 b2 =>
    have hb1 : b1 < 256 := h b1 (by simp)
    have hb2 : b2 < 256 := h b2 (by simp)
    intro c hc
    simp only [b64EncodeChars, List.mem_cons, List.not_mem_nil, or_false] at hc
    rcases hc with rfl | rfl | rfl | rfl
    · exact b64Keep_b64Char _ (by omega)
    · exact b64Keep_b64Char _ (by omega)
    · exact b64Keep_b64Char _ (by omega)
    · rfl
  | case4 b1 b2 b3 rest ih =>
    have hb1 : b1 < 256 := h b1 (by simp)
    have hb2 : b2 < 256 := h b2 (by simp)
    have hb3 : b3 < 256 := h b3 (by simp)
    intro c hc
    simp only [b64EncodeChars, List.mem_cons] at hc
    rcases hc with rfl | rfl | rfl | rfl | hc
    · exact b64Keep_b64Char _ (by omega)
    · exact b64Keep_b64Char _ (by omega)
    · exact b64Keep_b64Char _ (by omega)
    · exact b64Keep_b64Char _ (by omega)
    · exact ih (fun x hx => h x (by simp [hx])) c hc

theorem b64Decode_b64Encode (bs : List Nat) (h : ∀ b ∈ bs, b < 256) :
    b64DecodeChars (b64EncodeChars bs) = .ok bs := by
  induction bs using b64EncodeChars.induct with
  | case1 => rfl
  | case2 b1 =>
    have hb1 : b1 < 256 := h b1 (by simp)
    simp only [b64EncodeChars, b64DecodeChars,
      b64Val_b64Char (b1 / 4) (by omega), b64Val_b64Char (b1 % 4 * 16) (by omega)]
    simp only [if_pos rfl, and_self, ite_true]
    congr 2
    omega
  | case3 b1 b2 =>
    have hb1 : b1 < 256 := h b1 (by simp)
    have hb2 : b2 < 256 := h b2 (by simp)
    simp only [b64EncodeChars, b64DecodeChars,
      b64Val_b64Char (b1 / 4) (by omega),
      b64Val_b64Char (b1 % 4 * 16 + b2 / 16) (by omega),
      b64Val_b64Char (b2 % 16 * 4) (by omega),
      if_neg (b64Char_ne_pad (b2 % 16 * 4) (by omega)), if_pos rfl, ite_true]
    congr 1
    refine List.cons_eq_cons.mpr ⟨by omega, ?_⟩
    refine List.cons_eq_cons.mpr ⟨by omega, rfl⟩
  | case4 b1 b2 b3 rest ih =>
    have hb1 : b1 < 256 := h b1 (by simp)
    have hb2 : b2 < 256 := h b2 (by simp)
    have hb3 : b3 < 256 := h b3 (by simp)
    simp only [b64EncodeChars, b64DecodeChars,
      b64Val_b64Char (b1 / 4) (by omega),
      b64Val_b64Char (b1 % 4 * 16 + b2 / 16) (by omega),
      b64Val_b64Char (b2 % 16 * 4 + b3 / 64) (by omega),
      b64Val_b64Char (b3 % 64) (by omega),
      if_neg (b64Char_ne_pad (b2 % 16 * 4 + b3 / 64) (by omega)),
      if_neg (b64Char_ne_pad (b3 % 64) (by omega)),
      ih fun x hx => h x (by simp [hx])]
    congr 1
    refine List.cons_eq_cons.mpr ⟨by omega, ?_⟩
    refine List.cons_eq_cons.mpr ⟨by omega, ?_⟩
    refine List.cons_eq_cons.mpr ⟨by omega, rfl⟩

theorem listToNat_injective : Function.Injective listToNat := by
  intro xs
  induction xs with
  | nil =>
    intro ys hy
    cases ys with
    | nil => rfl
    | cons y ys => simp [listToNat] at hy
  | cons x xs ih =>
    intro ys hy
    cases ys with
    | nil => simp [listToNat] at hy
    | cons y ys =>
      simp only [listToNat, List.foldr_cons, Nat.add_right_cancel_iff] at hy
      have := Nat.pair_eq_pair.mp hy
      have h2 : xs = ys := ih this.2
      rw [this.1, h2]

theorem natFromDigits_natDigitsAux :
    ∀ fuel n, n ≤ fuel → natFromDigits (natDigitsAux fuel n) = n := by
  intro fuel
  induction fuel with
  | zero =>
    intro n hn
    interval_cases n
    rfl
  | succ fuel ih =>
    intro n hn
    match n with
    | 0 => rfl
    | m + 1 =>
      have hdiv : (m + 1) / 256 ≤ fuel := by
        have := Nat.div_lt_self (Nat.succ_pos m) (by omega : 1 < 256)
        omega
      simp only [natDigitsAux, natFromDigits, List.foldr_cons]
      have := ih ((m + 1) / 256) hdiv
      simp only [natFromDigits] at this
      rw [this]
      omega

theorem natFromDigits_natDigits (n : Nat) :
    natFromDigits (natDigits n) = n :=
  natFromDigits_natDigitsAux n n (Nat.le_refl n)

theorem asn1Unmarshal_asn1Marshal (sig : Nat × Nat) :
    asn1Unmarshal (asn1Marshal sig) = some sig := by
  obtain ⟨r, s⟩ := sig
  simp only [asn1Marshal, encNat, asn1Unmarshal, List.cons_append,
    List.append_eq]
  rw [List.drop_append_of_le_length (by simp), List.drop_length,
    List.take_append_of_le_length (by simp), List.take_length]
  simp [natFromDigits_natDigits]

theorem oneByteAltered_ne {msg msgA : List Nat}
    (h : oneByteAltered msg msgA) : msgA ≠ msg := by
  obtain ⟨-, i, -, hne, -⟩ := h
  intro heq
  exact hne (by rw [heq])

/-! Helper lemmas for the sign-then-verify round trip, one per algorithm
and padding scheme, stated at the level of executeSign and executeVerify
with the binary output format. -/

theorem roundtrip_rsa_pkcs (k : rsa.PrivateKey) (h : GoHash)
    (d dA : List Nat) (opts : SigningOptions) (nonce : Nat)
    (ht : optGet opts "type" = "") (hne : dA ≠ d) :
    executeSign ⟨"RSA", .rsaPriv k⟩ h d "binary" opts nonce
      = .ok (.bytes (pkcsSigBytes k.PublicKey h d))
    ∧ executeVerify ⟨"RSA", .rsaPub k.PublicKey⟩ h d
        (pkcsSigBytes k.PublicKey h d) opts = .ok true
    ∧ executeVerify ⟨"RSA", .rsaPub k.PublicKey⟩ h dA
        (pkcsSigBytes k.PublicKey h d) opts = .ok false := by
  refine ⟨?_, ?_, ?_⟩
  · simp [executeSign, signRSA, ht, signPKCS, encodeBinary]
  · simp [executeVerify, verifyRSA, ht, verifyPKCS, rsaVerifyPKCSCore]
  · simp [executeVerify, verifyRSA, ht, verifyPKCS, rsaVerifyPKCSCore,
      pkcsSigBytes, Ne.symm hne]

theorem roundtrip_rsa_pss (k : rsa.PrivateKey) (h : GoHash)
    (d dA : List Nat) (opts : SigningOptions) (nonce : Nat)
    (ht : optGet opts "type" = "pss") (hne : dA ≠ d) :
    executeSign ⟨"RSA", .rsaPriv k⟩ h d "binary" opts nonce
      = .ok (.bytes (pssSigBytes k.PublicKey h
          (decodePssOptions opts).SaltLength.toNat nonce d))
    ∧ executeVerify ⟨"RSA", .rsaPub k.PublicKey⟩ h d
        (pssSigBytes k.PublicKey h
          (decodePssOptions opts).SaltLength.toNat nonce d) opts = .ok true
    ∧ executeVerify ⟨"RSA", .rsaPub k.PublicKey⟩ h dA
        (pssSigBytes k.PublicKey h
          (decodePssOptions opts).SaltLength.toNat nonce d) opts
      = .ok false := by
  refine ⟨?_, ?_, ?_⟩
  · simp [executeSign, signRSA, ht, signPSS, encodeBinary]
  · simp [executeVerify, verifyRSA, ht, verifyPSS, rsaVerifyPSSCore,
      pssSigBytes]
  · simp [executeVerify, verifyRSA, ht, verifyPSS, rsaVerifyPSSCore,
      pssSigBytes, Ne.symm hne]

theorem roundtrip_dsa (k : dsa.PrivateKey) (h : GoHash)
    (d dA : List Nat) (opts : SigningOptions) (nonce : Nat)
    (hne : dA ≠ d) :
    executeSign ⟨"DSA", .dsaPriv k⟩ h d "binary" opts nonce
      = .ok (.bytes (asn1Marshal (dsaSignCore k d nonce)))
    ∧ executeVerify ⟨"DSA", .dsaPub k.PublicKey⟩ h d
        (asn1Marshal (dsaSignCore k d nonce)) opts = .ok true
    ∧ executeVerify ⟨"DSA", .dsaPub k.PublicKey⟩ h dA
        (asn1Marshal (dsaSignCore k d nonce)) opts = .ok false := by
  have hlist : listToNat d ≠ listToNat dA := fun hh => hne
    (listToNat_injective hh).symm
  refine ⟨?_, ?_, ?_⟩
  · simp [executeSign, signDSA, encodeBinary]
  · simp [executeVerify, verifyDSA, asn1Unmarshal_asn1Marshal, dsaSignCore,
      dsaVerifyCore]
  · simp [executeVerify, verifyDSA, asn1Unmarshal_asn1Marshal, dsaSignCore,
      dsaVerifyCore, Nat.pair_eq_pair, hlist]

theorem roundtrip_ecdsa (k : ecdsa.PrivateKey) (h : GoHash)
    (d dA : List Nat) (opts : SigningOptions) (nonce : Nat)
    (hne : dA ≠ d) :
    executeSign ⟨"ECDSA", .ecdsaPriv k⟩ h d "binary" opts nonce
      = .ok (.bytes (asn1Marshal (ecdsaSignCore k d nonce)))
    ∧ executeVerify ⟨"ECDSA", .ecdsaPub k.PublicKey⟩ h d
        (asn1Marshal (ecdsaSignCore k d nonce)) opts = .ok true
    ∧ executeVerify ⟨"ECDSA", .ecdsaPub k.PublicKey⟩ h dA
        (asn1Marshal (ecdsaSignCore k d nonce)) opts = .ok false := by
  have hlist : listToNat d ≠ listToNat dA := fun hh => hne
    (listToNat_injective hh).symm
  refine ⟨?_, ?_, ?_⟩
  · simp [executeSign, signECDSA, encodeBinary]
  · simp [executeVerify, verifyECDSA, asn1Unmarshal_asn1Marshal,
      ecdsaSignCore, ecdsaVerifyCore]
  · simp [executeVerify, verifyECDSA, asn1Unmarshal_asn1Marshal,
      ecdsaSignCore, ecdsaVerifyCore, Nat.pair_eq_pair, hlist]

/-! Plumbing lemmas relating the one-shot methods to executeSign and
executeVerify when the inputs are byte sequences. -/

theorem CryptoSign_bytes (signer : x509.PrivateKey) (fn : String)
    (h : GoHash) (msg : List Nat) (format : String)
    (opts : SigningOptions) (nonce : Nat)
    (hval : validatePrivateKey signer = .ok ())
    (hfn : decodeFunction fn = .ok h) :
    Crypto.Sign signer fn (.bytes msg) format opts nonce
      = executeSign signer h (digestOf fn msg) format opts nonce := by
  simp [Crypto.Sign, prepareSign, hval, hfn, decodePlaintext,
    decodeBinaryDetect, decodeBytes, hashPlaintext, bind, Except.bind]

theorem CryptoVerify_bytes (signer : x509.PublicKey) (fn : String)
    (h : GoHash) (msg sig : List Nat) (opts : SigningOptions)
    (hval : validatePublicKey signer = .ok ())
    (hfn : decodeFunction fn = .ok h) :
    Crypto.Verify signer fn (.bytes msg) (.bytes sig) opts
      = executeVerify signer h (digestOf fn msg) sig opts := by
  simp [Crypto.Verify, prepareVerify, hval, hfn, decodePlaintext,
    decodeSignature, decodeBinaryDetect, decodeBytes, hashPlaintext,
    bind, Except.bind]

/-! Claim theorems. -/

/-- C4: decode with empty format attempts raw-byte interpretation, then hex
decoding, then base64 decoding, returning the first success; it fails with
the unrecognized-encoding error exactly when all three fail; a string that
is valid hex (such as deadbeef, also valid base64) decodes identically to
explicit hex decoding, and a byte-sequence input decodes to itself. -/
theorem autodetect_priority :
    (∀ bs : List Nat, decodeBinary (.bytes bs) "" = .ok bs)
    ∧ (∀ (s : String) (r : List Nat), decodeHex (.str s) = .ok r →
        decodeBinary (.str s) "" = .ok r
          ∧ decodeBinaryKnown (.str s) "hex" = .ok r)
    ∧ (∀ (s : String) (e : Failure) (r : List Nat),
        decodeHex (.str s) = .error e → decodeBase64 (.str s) = .ok r →
        decodeBinary (.str s) "" = .ok r)
    ∧ (∀ v : Value,
        decodeBinaryDetect v
            = .error (.goError "unrecognized binary encoding") ↔
          (∃ e1, decodeBytes v = .error e1) ∧ (∃ e2, decodeHex v = .error e2)
            ∧ (∃ e3, decodeBase64 v = .error e3))
    ∧ (decodeBinary (.str "deadbeef") "" = .ok [222, 173, 190, 239]
        ∧ decodeBinaryKnown (.str "deadbeef") "hex"
            = .ok [222, 173, 190, 239]) := by
  refine ⟨fun bs => rfl, ?_, ?_, ?_, by rfl, by rfl⟩
  · intro s r h
    constructor
    · simp [decodeBinary, decodeBinaryDetect, decodeBytes, h]
    · simp [decodeBinaryKnown, h]
  · intro s e r hhex hb64
    simp [decodeBinary, decodeBinaryDetect, decodeBytes, hhex, hb64]
  · intro v
    constructor
    · intro h
      cases hb : decodeBytes v with
      | ok r => simp [decodeBinaryDetect, hb] at h
      | error e1 =>
        cases hh : decodeHex v with
        | ok r => simp [decodeBinaryDetect, hb, hh] at h
        | error e2 =>
          cases h64 : decodeBase64 v with
          | ok r => simp [decodeBinaryDetect, hb, hh, h64] at h
          | error e3 => exact ⟨⟨e1, rfl⟩, ⟨e2, rfl⟩, ⟨e3, rfl⟩⟩
    · rintro ⟨⟨e1, h1⟩, ⟨e2, h2⟩, ⟨e3, h3⟩⟩
      simp [decodeBinaryDetect, h1, h2, h3]

/-- Witness for C4 at a concrete input: the string 00 is valid hex, so
auto-detection decodes it as hex. -/
theorem autodetect_priority_witness :
    decodeBinary (.str "00") "" = .ok [0]
      ∧ decodeBinaryKnown (.str "00") "hex" = .ok [0] :=
  autodetect_priority.2.1 "00" [0] (by rfl)

/-- C9: decode with a non-empty format outside the three supported names
fails as an unsupported encoding for every input; encode with a format
outside the empty string and the three names fails likewise for every byte
sequence; encode with empty format and with binary format both return the
input bytes unchanged. -/
theorem codec_format_errors :
    (∀ (v : Value) (f : String), f ≠ "" → f ≠ "binary" → f ≠ "hex" →
      f ≠ "base64" →
      decodeBinary v f
        = .error (.goError ("unsupported binary encoding: " ++ f)))
    ∧ (∀ (bs : List Nat) (f : String), f ≠ "" → f ≠ "binary" → f ≠ "hex" →
      f ≠ "base64" →
      encodeBinary bs f
        = .error (.goError ("unsupported binary encoding: " ++ f)))
    ∧ (∀ bs : List Nat, encodeBinary bs "" = .ok (.bytes bs)
        ∧ encodeBinary bs "binary" = .ok (.bytes bs)) := by
  refine ⟨?_, ?_, fun bs => ⟨rfl, rfl⟩⟩
  · intro v f h0 h1 h2 h3
    rw [decodeBinary, if_pos h0]
    unfold decodeBinaryKnown
    split
    · exact absurd rfl h1
    · exact absurd rfl h2
    · exact absurd rfl h3
    · rfl
  · intro bs f h0 h1 h2 h3
    unfold encodeBinary
    split
    · exact absurd rfl h0
    · exact absurd rfl h1
    · exact absurd rfl h2
    · exact absurd rfl h3
    · rfl

/-- Witness for C9 at a concrete input: the format uuencode is rejected by
both decode and encode, and empty and binary formats pass bytes through. -/
theorem codec_format_errors_witness :
    decodeBinary (.bytes [1]) "uuencode"
        = .error (.goError "unsupported binary encoding: uuencode")
      ∧ encodeBinary [1] "uuencode"
        = .error (.goError "unsupported binary encoding: uuencode")
      ∧ encodeBinary [1] "" = .ok (.bytes [1])
      ∧ encodeBinary [1] "binary" = .ok (.bytes [1]) :=
  ⟨codec_format_errors.1 (.bytes [1]) "uuencode" (by decide) (by decide)
      (by decide) (by decide),
    codec_format_errors.2.1 [1] "uuencode" (by decide) (by decide)
      (by decide) (by decide),
    (codec_format_errors.2.2 [1]).1, (codec_format_errors.2.2 [1]).2⟩

/-- C5: for every byte sequence and every explicit format among binary,
hex and base64, decoding the result of encoding under that format with the
same format yields the original bytes. -/
theorem codec_roundtrip (bs : List Nat) (f : String)
    (hf : f = "binary" ∨ f = "hex" ∨ f = "base64")
    (hbytes : ∀ b ∈ bs, b < 256) :
    ∃ v, encodeBinary bs f = .ok v ∧ decodeBinary v f = .ok bs := by
  rcases hf with rfl | rfl | rfl
  · exact ⟨.bytes bs, rfl, rfl⟩
  · refine ⟨.str (String.mk (hexEncodeChars bs)), rfl, ?_⟩
    show hexDecodeChars (String.mk (hexEncodeChars bs)).data = .ok bs
    exact hexDecode_hexEncode bs hbytes
  · refine ⟨.str (String.mk (b64EncodeChars bs)), rfl, ?_⟩
    show b64DecodeChars
        ((String.mk (b64EncodeChars bs)).data.filter b64Keep) = .ok bs
    rw [show (String.mk (b64EncodeChars bs)).data = b64EncodeChars bs
      from rfl]
    rw [List.filter_eq_self.mpr (b64Keep_b64EncodeChars bs hbytes)]
    exact b64Decode_b64Encode bs hbytes

/-- Witness for C5 at a concrete input: two bytes, round-tripped through
the base64 format. -/
theorem codec_roundtrip_witness :
    ∃ v, encodeBinary [0, 255] "base64" = .ok v
      ∧ decodeBinary v "base64" = .ok [0, 255] :=
  codec_roundtrip [0, 255] "base64" (Or.inr (Or.inr rfl)) (by decide)

/-- C8: the salt length used for RSA-PSS is the saltLength option parsed
as a decimal integer, and it is zero when the option is absent (the
interpretation of the zero value is the external RSA library's and lies
outside these sources). The concrete conjuncts pin the decimal parse:
a plain number, a negative number, the empty string and a non-number. -/
theorem pss_salt_length :
    (∀ options : SigningOptions,
      (decodePssOptions options).SaltLength
        = decodeInt (optGet options "saltLength"))
    ∧ (∀ options : SigningOptions,
        options.find? (fun p => p.1 == "saltLength") = none →
        (decodePssOptions options).SaltLength = 0)
    ∧ decodeInt "" = 0 ∧ decodeInt "42" = 42 ∧ decodeInt "-17" = -17
    ∧ decodeInt "bogus" = 0 := by
  refine ⟨fun _ => rfl, ?_, by rfl, by rfl, by rfl, by rfl⟩
  intro options h
  show decodeInt (optGet options "saltLength") = 0
  rw [optGet, h]
  rfl

/-- Witness for C8 at a concrete input: an option bag without a saltLength
key yields salt length zero. -/
theorem pss_salt_length_witness :
    (decodePssOptions [("type", "pss")]).SaltLength = 0 :=
  pss_salt_length.2.1 [("type", "pss")] (by rfl)

/-- C2 counterexample: the claim says an explicit type value pkcs1v15
selects PKCS#1 v1.5, but the source dispatches only on the empty string
and pss, so sign and verify fail with the unsupported-type error on
exactly that value. -/
theorem rsa_pkcs1v15_type_rejected :
    signRSA ⟨⟨3233, 17⟩, 413⟩ 5 [1, 2, 3] [("type", "pkcs1v15")] 0
      = .error (.goError "unsupported type: pkcs1v15")
    ∧ verifyRSA ⟨3233, 17⟩ 5 [1, 2, 3] [0, 3233, 17, 5, 1, 2, 3]
        [("type", "pkcs1v15")]
      = .error (.goError "unsupported type: pkcs1v15") :=
  ⟨rfl, rfl⟩

/-- C2 (amended): for an RSA key, sign and verify perform PKCS#1 v1.5 when
options.type is unset (the empty string, which is also what a missing key
yields), perform PSS when it is pss, and fail with the unsupported-padding
error for every other value, including the explicit string pkcs1v15. -/
theorem rsa_padding_dispatch (k : rsa.PrivateKey) (pk : rsa.PublicKey)
    (function : GoHash) (digest sig : List Nat) (options : SigningOptions)
    (nonce : Nat) :
    (optGet options "type" = "" →
      executeSign ⟨"RSA", .rsaPriv k⟩ function digest "binary" options nonce
        = .ok (.bytes (pkcsSigBytes k.PublicKey function digest))
      ∧ executeVerify ⟨"RSA", .rsaPub pk⟩ function digest sig options
        = .ok (verifyPKCS pk function digest sig))
    ∧ (optGet options "type" = "pss" →
      executeSign ⟨"RSA", .rsaPriv k⟩ function digest "binary" options nonce
        = .ok (.bytes (pssSigBytes k.PublicKey function
            (decodePssOptions options).SaltLength.toNat nonce digest))
      ∧ executeVerify ⟨"RSA", .rsaPub pk⟩ function digest sig options
        = .ok (verifyPSS pk function digest sig options))
    ∧ (optGet options "type" ≠ "" → optGet options "type" ≠ "pss" →
      executeSign ⟨"RSA", .rsaPriv k⟩ function digest "binary" options nonce
        = .error (.goError ("unsupported type: " ++ optGet options "type"))
      ∧ executeVerify ⟨"RSA", .rsaPub pk⟩ function digest sig options
        = .error (.goError ("unsupported type: " ++ optGet options "type")))
    := by
  refine ⟨?_, ?_, ?_⟩
  · intro h
    constructor
    · simp [executeSign, signRSA, h, signPKCS, encodeBinary]
    · simp [executeVerify, verifyRSA, h]
  · intro h
    constructor
    · simp [executeSign, signRSA, h, signPSS, encodeBinary]
    · simp [executeVerify, verifyRSA, h]
  · intro h1 h2
    have hr : signRSA k function digest options nonce
        = .error (.goError ("unsupported type: " ++ optGet options "type")) := by
      unfold signRSA
      split
      · exact absurd (by assumption) h1
      · exact absurd (by assumption) h2
      · rfl
    have hv : verifyRSA pk function digest sig options
        = .error (.goError ("unsupported type: " ++ optGet options "type")) := by
      unfold verifyRSA
      split
      · exact absurd (by assumption) h1
      · exact absurd (by assumption) h2
      · rfl
    exact ⟨by simp [executeSign, hr], by simp [executeVerify, hv]⟩

/-- Witness for C2's amended theorem at a concrete input: an empty option
bag selects PKCS#1 v1.5 for both sign and verify. -/
theorem rsa_padding_dispatch_witness :
    executeSign ⟨"RSA", .rsaPriv ⟨⟨3233, 17⟩, 413⟩⟩ 5 [1, 2] "binary" [] 0
      = .ok (.bytes (pkcsSigBytes ⟨3233, 17⟩ 5 [1, 2]))
    ∧ executeVerify ⟨"RSA", .rsaPub ⟨3233, 17⟩⟩ 5 [1, 2] [9] []
      = .ok (verifyPKCS ⟨3233, 17⟩ 5 [1, 2] [9]) :=
  (rsa_padding_dispatch ⟨⟨3233, 17⟩, 413⟩ ⟨3233, 17⟩ 5 [1, 2] [9] [] 0).1
    rfl

/-- C1: sign-then-verify round trip through the one-shot operations. For
each supported key algorithm, and for RSA under each supported padding
scheme, and for every supported digest name and every message: verifying
the produced signature with the matching public key returns true, and
verifying it against a message altered by one byte returns false. The
ideal modelled primitives stand in for the external RSA, DSA and ECDSA
cores and the external digest. -/
theorem sign_verify_roundtrip :
    (∀ (k : rsa.PrivateKey) (fn : String) (h : GoHash)
      (msg msgA : List Nat) (opts : SigningOptions) (nonce : Nat),
      decodeFunction fn = .ok h → optGet opts "type" = "" →
      oneByteAltered msg msgA →
      Crypto.Sign ⟨"RSA", .rsaPriv k⟩ fn (.bytes msg) "binary" opts nonce
        = .ok (.bytes (pkcsSigBytes k.PublicKey h (digestOf fn msg)))
      ∧ Crypto.Verify ⟨"RSA", .rsaPub k.PublicKey⟩ fn (.bytes msg)
          (.bytes (pkcsSigBytes k.PublicKey h (digestOf fn msg))) opts
        = .ok true
      ∧ Crypto.Verify ⟨"RSA", .rsaPub k.PublicKey⟩ fn (.bytes msgA)
          (.bytes (pkcsSigBytes k.PublicKey h (digestOf fn msg))) opts
        = .ok false)
    ∧ (∀ (k : rsa.PrivateKey) (fn : String) (h : GoHash)
      (msg msgA : List Nat) (opts : SigningOptions) (nonce : Nat),
      decodeFunction fn = .ok h → optGet opts "type" = "pss" →
      oneByteAltered msg msgA →
      Crypto.Sign ⟨"RSA", .rsaPriv k⟩ fn (.bytes msg) "binary" opts nonce
        = .ok (.bytes (pssSigBytes k.PublicKey h
            (decodePssOptions opts).SaltLength.toNat nonce
            (digestOf fn msg)))
      ∧ Crypto.Verify ⟨"RSA", .rsaPub k.PublicKey⟩ fn (.bytes msg)
          (.bytes (pssSigBytes k.PublicKey h
            (decodePssOptions opts).SaltLength.toNat nonce
            (digestOf fn msg))) opts = .ok true
      ∧ Crypto.Verify ⟨"RSA", .rsaPub k.PublicKey⟩ fn (.bytes msgA)
          (.bytes (pssSigBytes k.PublicKey h
            (decodePssOptions opts).SaltLength.toNat nonce
            (digestOf fn msg))) opts = .ok false)
    ∧ (∀ (k : dsa.PrivateKey) (fn : String) (h : GoHash)
      (msg msgA : List Nat) (opts : SigningOptions) (nonce : Nat),
      decodeFunction fn = .ok h → oneByteAltered msg msgA →
      Crypto.Sign ⟨"DSA", .dsaPriv k⟩ fn (.bytes msg) "binary" opts nonce
        = .ok (.bytes (asn1Marshal (dsaSignCore k (digestOf fn msg) nonce)))
      ∧ Crypto.Verify ⟨"DSA", .dsaPub k.PublicKey⟩ fn (.bytes msg)
          (.bytes (asn1Marshal (dsaSignCore k (digestOf fn msg) nonce)))
          opts = .ok true
      ∧ Crypto.Verify ⟨"DSA", .dsaPub k.PublicKey⟩ fn (.bytes msgA)
          (.bytes (asn1Marshal (dsaSignCore k (digestOf fn msg) nonce)))
          opts = .ok false)
    ∧ (∀ (k : ecdsa.PrivateKey) (fn : String) (h : GoHash)
      (msg msgA : List Nat) (opts : SigningOptions) (nonce : Nat),
      decodeFunction fn = .ok h → oneByteAltered msg msgA →
      Crypto.Sign ⟨"ECDSA", .ecdsaPriv k⟩ fn (.bytes msg) "binary" opts
          nonce
        = .ok (.bytes (asn1Marshal
            (ecdsaSignCore k (digestOf fn msg) nonce)))
      ∧ Crypto.Verify ⟨"ECDSA", .ecdsaPub k.PublicKey⟩ fn (.bytes msg)
          (.bytes (asn1Marshal (ecdsaSignCore k (digestOf fn msg) nonce)))
          opts = .ok true
      ∧ Crypto.Verify ⟨"ECDSA", .ecdsaPub k.PublicKey⟩ fn (.bytes msgA)
          (.bytes (asn1Marshal (ecdsaSignCore k (digestOf fn msg) nonce)))
          opts = .ok false) := by
  have hdig : ∀ (fn : String) (msg msgA : List Nat),
      oneByteAltered msg msgA → digestOf fn msgA ≠ digestOf fn msg :=
    fun fn msg msgA halt => oneByteAltered_ne halt
  refine ⟨?_, ?_, ?_, ?_⟩
  · intro k fn h msg msgA opts nonce hfn ht halt
    have hr := roundtrip_rsa_pkcs k h (digestOf fn msg) (digestOf fn msgA)
      opts nonce ht (hdig fn msg msgA halt)
    exact ⟨(CryptoSign_bytes ⟨"RSA", .rsaPriv k⟩ fn h msg "binary" opts nonce rfl
        hfn).trans hr.1,
      (CryptoVerify_bytes ⟨"RSA", .rsaPub k.PublicKey⟩ fn h msg _ opts rfl hfn).trans hr.2.1,
      (CryptoVerify_bytes ⟨"RSA", .rsaPub k.PublicKey⟩ fn h msgA _ opts rfl hfn).trans
        hr.2.2⟩
  · intro k fn h msg msgA opts nonce hfn ht halt
    have hr := roundtrip_rsa_pss k h (digestOf fn msg) (digestOf fn msgA)
      opts nonce ht (hdig fn msg msgA halt)
    exact ⟨(CryptoSign_bytes ⟨"RSA", .rsaPriv k⟩ fn h msg "binary" opts nonce rfl
        hfn).trans hr.1,
      (CryptoVerify_bytes ⟨"RSA", .rsaPub k.PublicKey⟩ fn h msg _ opts rfl hfn).trans hr.2.1,
      (CryptoVerify_bytes ⟨"RSA", .rsaPub k.PublicKey⟩ fn h msgA _ opts rfl hfn).trans
        hr.2.2⟩
  · intro k fn h msg msgA opts nonce hfn halt
    have hr := roundtrip_dsa k h (digestOf fn msg) (digestOf fn msgA)
      opts nonce (hdig fn msg msgA halt)
    exact ⟨(CryptoSign_bytes ⟨"DSA", .dsaPriv k⟩ fn h msg "binary" opts nonce rfl
        hfn).trans hr.1,
      (CryptoVerify_bytes ⟨"DSA", .dsaPub k.PublicKey⟩ fn h msg _ opts rfl hfn).trans hr.2.1,
      (CryptoVerify_bytes ⟨"DSA", .dsaPub k.PublicKey⟩ fn h msgA _ opts rfl hfn).trans
        hr.2.2⟩
  · intro k fn h msg msgA opts nonce hfn halt
    have hr := roundtrip_ecdsa k h (digestOf fn msg) (digestOf fn msgA)
      opts nonce (hdig fn msg msgA halt)
    exact ⟨(CryptoSign_bytes ⟨"ECDSA", .ecdsaPriv k⟩ fn h msg "binary" opts nonce rfl
        hfn).trans hr.1,
      (CryptoVerify_bytes ⟨"ECDSA", .ecdsaPub k.PublicKey⟩ fn h msg _ opts rfl hfn).trans hr.2.1,
      (CryptoVerify_bytes ⟨"ECDSA", .ecdsaPub k.PublicKey⟩ fn h msgA _ opts rfl hfn).trans
        hr.2.2⟩

/-- Witness for C1 at a concrete input: a DSA keypair, the sha256 digest
name, the message 1 2 3 and the same message with its first byte altered
to 9. -/
theorem sign_verify_roundtrip_witness :
    Crypto.Sign ⟨"DSA", .dsaPriv ⟨⟨⟨0, 0, 0⟩, 5⟩, 7⟩⟩ "sha256"
        (.bytes [1, 2, 3]) "binary" [] 0
      = .ok (.bytes (asn1Marshal
          (dsaSignCore ⟨⟨⟨0, 0, 0⟩, 5⟩, 7⟩ (digestOf "sha256" [1, 2, 3]) 0)))
    ∧ Crypto.Verify ⟨"DSA", .dsaPub ⟨⟨0, 0, 0⟩, 5⟩⟩ "sha256"
        (.bytes [1, 2, 3])
        (.bytes (asn1Marshal
          (dsaSignCore ⟨⟨⟨0, 0, 0⟩, 5⟩, 7⟩ (digestOf "sha256" [1, 2, 3]) 0)))
        [] = .ok true
    ∧ Crypto.Verify ⟨"DSA", .dsaPub ⟨⟨0, 0, 0⟩, 5⟩⟩ "sha256"
        (.bytes [9, 2, 3])
        (.bytes (asn1Marshal
          (dsaSignCore ⟨⟨⟨0, 0, 0⟩, 5⟩, 7⟩ (digestOf "sha256" [1, 2, 3]) 0)))
        [] = .ok false :=
  sign_verify_roundtrip.2.2.1 ⟨⟨⟨0, 0, 0⟩, 5⟩, 7⟩ "sha256" 5 [1, 2, 3]
    [9, 2, 3] [] 0 rfl
    ⟨rfl, 0, by decide, by decide, by decide⟩

/-- C3: for a valid key and a well-formed signature encoding, verification
returns a boolean and never errors; an error arises only from malformed
input: an algorithm tag outside the three supported names, a corrupt DER
pair for DSA or ECDSA, or an unsupported RSA padding type. A well-formed
but mismatched signature yields the plain verdict false, shown here for
the RSA PKCS#1 v1.5 and DSA branches. -/
theorem verify_mismatch_is_false :
    (∀ (key : x509.PublicKey) (h : GoHash) (d sig : List Nat)
      (opts : SigningOptions),
      validatePublicKey key = .ok () →
      (key.Algorithm = "RSA" →
        optGet opts "type" = "" ∨ optGet opts "type" = "pss") →
      (key.Algorithm = "DSA" → (asn1Unmarshal sig).isSome) →
      (key.Algorithm = "ECDSA" → (asn1Unmarshal sig).isSome) →
      ∃ b, executeVerify key h d sig opts = .ok b)
    ∧ (∀ (key : x509.PublicKey) (h : GoHash) (d sig : List Nat)
      (opts : SigningOptions) (e : Failure),
      validatePublicKey key = .ok () →
      executeVerify key h d sig opts = .error e →
      (key.Algorithm = "RSA" ∧ optGet opts "type" ≠ ""
        ∧ optGet opts "type" ≠ "pss"
        ∧ e = .goError ("unsupported type: " ++ optGet opts "type"))
      ∨ ((key.Algorithm = "DSA" ∨ key.Algorithm = "ECDSA")
        ∧ asn1Unmarshal sig = none))
    ∧ (∀ (key : x509.PublicKey) (h : GoHash) (d sig : List Nat)
      (opts : SigningOptions),
      key.Algorithm ≠ "RSA" → key.Algorithm ≠ "DSA" →
      key.Algorithm ≠ "ECDSA" →
      executeVerify key h d sig opts
        = .error (.goError "invalid public key"))
    ∧ (∀ (pk : rsa.PublicKey) (h : GoHash) (d sig : List Nat)
      (opts : SigningOptions),
      optGet opts "type" = "" → sig ≠ pkcsSigBytes pk h d →
      executeVerify ⟨"RSA", .rsaPub pk⟩ h d sig opts = .ok false)
    ∧ (∀ (pk : dsa.PublicKey) (h : GoHash) (d sig : List Nat)
      (opts : SigningOptions) (r s : Nat),
      asn1Unmarshal sig = some (r, s) → s ≠ Nat.pair pk.Y (listToNat d) →
      executeVerify ⟨"DSA", .dsaPub pk⟩ h d sig opts = .ok false) := by
  refine ⟨?_, ?_, ?_, ?_, ?_⟩
  · rintro ⟨alg, kv⟩ h d sig opts hval hrsa hdsa hecdsa
    unfold validatePublicKey at hval
    dsimp only at hval hrsa hdsa hecdsa
    split at hval
    · split at hval
      · next k =>
        obtain ⟨⟨r, s⟩, hrs⟩ := Option.isSome_iff_exists.mp (hdsa rfl)
        exact ⟨dsaVerifyCore k d r s,
          by simp [executeVerify, verifyDSA, hrs]⟩
      · simp at hval
    · split at hval
      · next k =>
        obtain ⟨⟨r, s⟩, hrs⟩ := Option.isSome_iff_exists.mp (hecdsa rfl)
        exact ⟨ecdsaVerifyCore k d r s,
          by simp [executeVerify, verifyECDSA, hrs]⟩
      · simp at hval
    · split at hval
      · next k =>
        rcases hrsa rfl with ht | ht
        · exact ⟨verifyPKCS k h d sig,
            by simp [executeVerify, verifyRSA, ht]⟩
        · exact ⟨verifyPSS k h d sig opts,
            by simp [executeVerify, verifyRSA, ht]⟩
      · simp at hval
    · simp at hval
  · rintro ⟨alg, kv⟩ h d sig opts e hval herr
    unfold validatePublicKey at hval
    dsimp only at hval herr ⊢
    split at hval
    · split at hval
      · next k =>
        simp only [executeVerify, verifyDSA] at herr
        refine Or.inr ⟨Or.inl rfl, ?_⟩
        cases hrs : asn1Unmarshal sig with
        | none => rfl
        | some p =>
          obtain ⟨r, s⟩ := p
          rw [hrs] at herr
          simp at herr
      · simp at hval
    · split at hval
      · next k =>
        simp only [executeVerify, verifyECDSA] at herr
        refine Or.inr ⟨Or.inr rfl, ?_⟩
        cases hrs : asn1Unmarshal sig with
        | none => rfl
        | some p =>
          obtain ⟨r, s⟩ := p
          rw [hrs] at herr
          simp at herr
      · simp at hval
    · split at hval
      · next k =>
        simp only [executeVerify, verifyRSA] at herr
        refine Or.inl ⟨rfl, ?_⟩
        split at herr
        · simp at herr
        · simp at herr
        · cases herr
          refine ⟨?_, ?_, rfl⟩ <;> intro hc <;> simp_all
      · simp at hval
    · simp at hval
  · rintro ⟨alg, kv⟩ h d sig opts h1 h2 h3
    dsimp only at h1 h2 h3
    unfold executeVerify
    dsimp only
    split
    · exact absurd rfl h2
    · exact absurd rfl h3
    · exact absurd rfl h1
    · rfl
  · intro pk h d sig opts ht hne
    simp [executeVerify, verifyRSA, ht, verifyPKCS, rsaVerifyPKCSCore, hne]
  · intro pk h d sig opts r s hrs hne
    simp [executeVerify, verifyDSA, hrs, dsaVerifyCore, hne]

/-- Witness for C3 at a concrete input: a valid DSA key and a well-formed
but unrelated signature verify to a boolean without error. -/
theorem verify_mismatch_is_false_witness :
    ∃ b, executeVerify ⟨"DSA", .dsaPub ⟨⟨0, 0, 0⟩, 5⟩⟩ 5 [1, 2]
      (asn1Marshal (3, 4)) [] = .ok b :=
  verify_mismatch_is_false.1 ⟨"DSA", .dsaPub ⟨⟨0, 0, 0⟩, 5⟩⟩ 5 [1, 2]
    (asn1Marshal (3, 4)) [] rfl (fun hc => absurd hc (by decide))
    (fun _ => by decide) (fun hc => absurd hc (by decide))

/-! Helper lemmas for the incremental signer and verifier. -/

theorem SignerUpdate_bytes (s : Signer) (c : List Nat) :
    Signer.Update s (.bytes c) "binary"
      = .ok { s with plaintext := s.plaintext ++ c } := by
  simp [Signer.Update, decodeBinary, decodeBinaryKnown, decodeBytes]

theorem foldlM_update (chunks : List (List Nat)) : ∀ s : Signer,
    List.foldlM (fun st c => Signer.Update st (.bytes c) "binary") s chunks
      = .ok { s with plaintext := s.plaintext ++ chunks.flatten } := by
  induction chunks with
  | nil => intro s; simp [List.foldlM, pure, Except.pure]
  | cons c cs ih =>
    intro s
    rw [List.foldlM_cons, SignerUpdate_bytes]
    simp [bind, Except.bind, ih, List.append_assoc]

theorem SignerSign_state (st : Signer) (key : x509.PrivateKey)
    (format : String) (nonce : Nat) :
    Signer.Sign st key format nonce
      = (executeSign key st.function (digestOf st.functionEncoded
          st.plaintext) format st.options nonce).map (fun sig => (sig, st))
    := by
  simp only [Signer.Sign, hashPlaintext, bind, Except.bind]
  cases hx : executeSign key st.function
      (digestOf st.functionEncoded st.plaintext) format st.options nonce
    with
  | error e => simp [Except.map]
  | ok sig => simp [Except.map]

theorem VerifierVerify_state (v : Verifier) (key : x509.PublicKey)
    (sig : List Nat) :
    Verifier.Verify v key (.bytes sig)
      = (executeVerify key v.function (digestOf v.functionEncoded
          v.plaintext) sig v.options).map (fun b => (b, v)) := by
  simp only [Verifier.Verify, decodeSignature, decodeBinaryDetect,
    decodeBytes, hashPlaintext, bind, Except.bind]
  cases hx : executeVerify key v.function
      (digestOf v.functionEncoded v.plaintext) sig v.options with
  | error e => simp [Except.map]
  | ok b => simp [Except.map]

/-- C6: incremental equivalence. Feeding the chunks of a message through
successive update calls leaves the same accumulated plaintext as one
update with their concatenation, so the subsequent finalize signs the same
digest, and the resulting signature verifies true against the same
accumulated message; the verify-true conjuncts instantiate DSA, ECDSA and
RSA PKCS#1 v1.5. -/
theorem incremental_equiv (s : Signer) (chunks : List (List Nat)) :
    (List.foldlM (fun st c => Signer.Update st (.bytes c) "binary") s
        chunks
      = .ok { s with plaintext := s.plaintext ++ chunks.flatten })
    ∧ (Signer.Update s (.bytes chunks.flatten) "binary"
      = .ok { s with plaintext := s.plaintext ++ chunks.flatten })
    ∧ (∀ (k : dsa.PrivateKey) (nonce : Nat),
      Signer.Sign { s with plaintext := s.plaintext ++ chunks.flatten }
          ⟨"DSA", .dsaPriv k⟩ "binary" nonce
        = .ok (.bytes (asn1Marshal (dsaSignCore k
            (digestOf s.functionEncoded (s.plaintext ++ chunks.flatten))
            nonce)),
          { s with plaintext := s.plaintext ++ chunks.flatten })
      ∧ Verifier.Verify
          ⟨s.function, s.functionEncoded, s.options,
            s.plaintext ++ chunks.flatten⟩
          ⟨"DSA", .dsaPub k.PublicKey⟩
          (.bytes (asn1Marshal (dsaSignCore k
            (digestOf s.functionEncoded (s.plaintext ++ chunks.flatten))
            nonce)))
        = .ok (true, ⟨s.function, s.functionEncoded, s.options,
            s.plaintext ++ chunks.flatten⟩))
    ∧ (∀ (k : ecdsa.PrivateKey) (nonce : Nat),
      Signer.Sign { s with plaintext := s.plaintext ++ chunks.flatten }
          ⟨"ECDSA", .ecdsaPriv k⟩ "binary" nonce
        = .ok (.bytes (asn1Marshal (ecdsaSignCore k
            (digestOf s.functionEncoded (s.plaintext ++ chunks.flatten))
            nonce)),
          { s with plaintext := s.plaintext ++ chunks.flatten })
      ∧ Verifier.Verify
          ⟨s.function, s.functionEncoded, s.options,
            s.plaintext ++ chunks.flatten⟩
          ⟨"ECDSA", .ecdsaPub k.PublicKey⟩
          (.bytes (asn1Marshal (ecdsaSignCore k
            (digestOf s.functionEncoded (s.plaintext ++ chunks.flatten))
            nonce)))
        = .ok (true, ⟨s.function, s.functionEncoded, s.options,
            s.plaintext ++ chunks.flatten⟩))
    ∧ (∀ (k : rsa.PrivateKey) (nonce : Nat),
      optGet s.options "type" = "" →
      Signer.Sign { s with plaintext := s.plaintext ++ chunks.flatten }
          ⟨"RSA", .rsaPriv k⟩ "binary" nonce
        = .ok (.bytes (pkcsSigBytes k.PublicKey s.function
            (digestOf s.functionEncoded (s.plaintext ++ chunks.flatten))),
          { s with plaintext := s.plaintext ++ chunks.flatten })
      ∧ Verifier.Verify
          ⟨s.function, s.functionEncoded, s.options,
            s.plaintext ++ chunks.flatten⟩
          ⟨"RSA", .rsaPub k.PublicKey⟩
          (.bytes (pkcsSigBytes k.PublicKey s.function
            (digestOf s.functionEncoded (s.plaintext ++ chunks.flatten))))
        = .ok (true, ⟨s.function, s.functionEncoded, s.options,
            s.plaintext ++ chunks.flatten⟩)) := by
  refine ⟨foldlM_update chunks s, SignerUpdate_bytes s chunks.flatten,
    ?_, ?_, ?_⟩
  · intro k nonce
    have hr := roundtrip_dsa k s.function
      (digestOf s.functionEncoded (s.plaintext ++ chunks.flatten))
      (0 :: digestOf s.functionEncoded (s.plaintext ++ chunks.flatten))
      s.options nonce (List.cons_ne_self 0 _)
    exact ⟨by simp [SignerSign_state, hr.1, Except.map],
      by simp [VerifierVerify_state, hr.2.1, Except.map]⟩
  · intro k nonce
    have hr := roundtrip_ecdsa k s.function
      (digestOf s.functionEncoded (s.plaintext ++ chunks.flatten))
      (0 :: digestOf s.functionEncoded (s.plaintext ++ chunks.flatten))
      s.options nonce (List.cons_ne_self 0 _)
    exact ⟨by simp [SignerSign_state, hr.1, Except.map],
      by simp [VerifierVerify_state, hr.2.1, Except.map]⟩
  · intro k nonce ht
    have hr := roundtrip_rsa_pkcs k s.function
      (digestOf s.functionEncoded (s.plaintext ++ chunks.flatten))
      (0 :: digestOf s.functionEncoded (s.plaintext ++ chunks.flatten))
      s.options nonce ht (List.cons_ne_self 0 _)
    exact ⟨by simp [SignerSign_state, hr.1, Except.map],
      by simp [VerifierVerify_state, hr.2.1, Except.map]⟩

/-- Witness for C6 at a concrete input: chunked updates 2 and 3 after an
initial byte 1 equal one update with the concatenation, and the finalized
RSA PKCS#1 v1.5 signature of the accumulated plaintext verifies true. -/
theorem incremental_equiv_witness :
    List.foldlM (fun st c => Signer.Update st (.bytes c) "binary")
        (⟨5, "sha256", [], [1]⟩ : Signer) [[2], [3]]
      = .ok (⟨5, "sha256", [], [1, 2, 3]⟩ : Signer)
    ∧ Signer.Update (⟨5, "sha256", [], [1]⟩ : Signer)
        (.bytes [[2], [3]].flatten) "binary"
      = .ok (⟨5, "sha256", [], [1, 2, 3]⟩ : Signer)
    ∧ Signer.Sign (⟨5, "sha256", [], [1, 2, 3]⟩ : Signer)
        ⟨"RSA", .rsaPriv ⟨⟨3233, 17⟩, 413⟩⟩ "binary" 0
      = .ok (.bytes (pkcsSigBytes ⟨3233, 17⟩ 5
          (digestOf "sha256" [1, 2, 3])),
        (⟨5, "sha256", [], [1, 2, 3]⟩ : Signer)) :=
  ⟨(incremental_equiv ⟨5, "sha256", [], [1]⟩ [[2], [3]]).1,
    (incremental_equiv ⟨5, "sha256", [], [1]⟩ [[2], [3]]).2.1,
    ((incremental_equiv ⟨5, "sha256", [], [1]⟩ [[2], [3]]).2.2.2.2
      ⟨⟨3233, 17⟩, 413⟩ 0 rfl).1⟩

/-- C7: a terminal sign or verify call on an incremental context returns
the context unchanged (the source methods write no field of the receiver,
so buffer, digest name and options survive), an append after finalize
extends the same plaintext, and a second finalize behaves exactly as a
finalize of the context holding the longer plaintext; no terminal call
invalidates the context. -/
theorem finalize_preserves_state :
    (∀ (s : Signer) (key : x509.PrivateKey) (format : String)
      (nonce : Nat) (out : Value) (s2 : Signer),
      Signer.Sign s key format nonce = .ok (out, s2) → s2 = s)
    ∧ (∀ (v : Verifier) (key : x509.PublicKey) (sigv : Value)
      (verdict : Bool) (v2 : Verifier),
      Verifier.Verify v key sigv = .ok (verdict, v2) → v2 = v)
    ∧ (∀ (s : Signer) (extra : List Nat),
      Signer.Update s (.bytes extra) "binary"
        = .ok { s with plaintext := s.plaintext ++ extra })
    ∧ (∀ (s : Signer) (key : x509.PrivateKey) (format : String)
      (nonce : Nat) (out : Value) (s2 : Signer) (extra : List Nat)
      (s3 : Signer),
      Signer.Sign s key format nonce = .ok (out, s2) →
      Signer.Update s2 (.bytes extra) "binary" = .ok s3 →
      Signer.Sign s3 key format nonce
        = Signer.Sign { s with plaintext := s.plaintext ++ extra } key
            format nonce) := by
  have hsign : ∀ (s : Signer) (key : x509.PrivateKey) (format : String)
      (nonce : Nat) (out : Value) (s2 : Signer),
      Signer.Sign s key format nonce = .ok (out, s2) → s2 = s := by
    intro s key format nonce out s2 h
    rw [SignerSign_state] at h
    cases hx : executeSign key s.function
        (digestOf s.functionEncoded s.plaintext) format s.options nonce
      with
    | error e => rw [hx] at h; simp [Except.map] at h
    | ok sig =>
      rw [hx] at h
      simp only [Except.map, Except.ok.injEq, Prod.mk.injEq] at h
      exact h.2.symm
  refine ⟨hsign, ?_, fun s extra => SignerUpdate_bytes s extra, ?_⟩
  · intro v key sigv verdict v2 h
    simp only [Verifier.Verify, hashPlaintext, bind, Except.bind] at h
    split at h
    · simp at h
    · split at h
      · simp at h
      · simp only [Except.ok.injEq, Prod.mk.injEq] at h
        exact h.2.symm
  · intro s key format nonce out s2 extra s3 hs hupd
    have h2 : s2 = s := hsign s key format nonce out s2 hs
    rw [SignerUpdate_bytes] at hupd
    injection hupd with hh
    rw [← hh, h2]

/-- Witness for C7 at a concrete input: a DSA context signs, the returned
context equals the original, and a second sign after an appended byte
equals the sign of the longer plaintext. -/
theorem finalize_preserves_state_witness :
    ((⟨5, "sha256", [], [1, 2]⟩ : Signer) = ⟨5, "sha256", [], [1, 2]⟩)
    ∧ Signer.Sign (⟨5, "sha256", [], [1, 2, 7]⟩ : Signer)
        ⟨"DSA", .dsaPriv ⟨⟨⟨0, 0, 0⟩, 5⟩, 7⟩⟩ "binary" 0
      = Signer.Sign (⟨5, "sha256", [], [1, 2, 7]⟩ : Signer)
          ⟨"DSA", .dsaPriv ⟨⟨⟨0, 0, 0⟩, 5⟩, 7⟩⟩ "binary" 0 := by
  constructor
  · exact finalize_preserves_state.1 ⟨5, "sha256", [], [1, 2]⟩
      ⟨"DSA", .dsaPriv ⟨⟨⟨0, 0, 0⟩, 5⟩, 7⟩⟩ "binary" 0
      (.bytes (asn1Marshal (dsaSignCore ⟨⟨⟨0, 0, 0⟩, 5⟩, 7⟩
        (digestOf "sha256" [1, 2]) 0)))
      ⟨5, "sha256", [], [1, 2]⟩ (by rfl)
  · exact finalize_preserves_state.2.2.2 ⟨5, "sha256", [], [1, 2]⟩
      ⟨"DSA", .dsaPriv ⟨⟨⟨0, 0, 0⟩, 5⟩, 7⟩⟩ "binary" 0
      (.bytes (asn1Marshal (dsaSignCore ⟨⟨⟨0, 0, 0⟩, 5⟩, 7⟩
        (digestOf "sha256" [1, 2]) 0)))
      ⟨5, "sha256", [], [1, 2]⟩ [7] ⟨5, "sha256", [], [1, 2, 7]⟩
      (by rfl) (by rfl)

/-- C10: the incremental finalize path skips key validation. For a key
whose algorithm tag is one of the three supported names but whose carried
value fails validation (its dynamic type does not match the tag), the
incremental Signer.Sign and Verifier.Verify reach the unchecked type
assertion and panic, while the one-shot paths stop in validatePrivateKey
or validatePublicKey with the invalid-key error before dispatch. -/
theorem incremental_skips_validation
    (priv : x509.PrivateKey) (pub : x509.PublicKey) (s : Signer)
    (v : Verifier) (format : String) (nonce : Nat) (sigBytes : List Nat)
    (fe : String) (pt : Value) (opts : SigningOptions) (e1 e2 : Failure)
    (hpalg : priv.Algorithm = "RSA" ∨ priv.Algorithm = "DSA"
      ∨ priv.Algorithm = "ECDSA")
    (hpval : validatePrivateKey priv = .error e1)
    (hqalg : pub.Algorithm = "RSA" ∨ pub.Algorithm = "DSA"
      ∨ pub.Algorithm = "ECDSA")
    (hqval : validatePublicKey pub = .error e2) :
    Signer.Sign s priv format nonce = .error .typeAssertPanic
    ∧ Verifier.Verify v pub (.bytes sigBytes) = .error .typeAssertPanic
    ∧ Crypto.Sign priv fe pt format opts nonce = .error e1
    ∧ Crypto.Verify pub fe pt (.bytes sigBytes) opts = .error e2 := by
  obtain ⟨palg, pkv⟩ := priv
  obtain ⟨qalg, qkv⟩ := pub
  dsimp only at hpalg hpval hqalg hqval
  refine ⟨?_, ?_, ?_, ?_⟩
  · rw [SignerSign_state]
    unfold executeSign
    rcases hpalg with rfl | rfl | rfl
    · unfold validatePrivateKey at hpval
      dsimp only at hpval ⊢
      cases pkv <;> simp_all [Except.map]
    · unfold validatePrivateKey at hpval
      dsimp only at hpval ⊢
      cases pkv <;> simp_all [Except.map]
    · unfold validatePrivateKey at hpval
      dsimp only at hpval ⊢
      cases pkv <;> simp_all [Except.map]
  · rw [VerifierVerify_state]
    unfold executeVerify
    rcases hqalg with rfl | rfl | rfl
    · unfold validatePublicKey at hqval
      dsimp only at hqval ⊢
      cases qkv <;> simp_all [Except.map]
    · unfold validatePublicKey at hqval
      dsimp only at hqval ⊢
      cases qkv <;> simp_all [Except.map]
    · unfold validatePublicKey at hqval
      dsimp only at hqval ⊢
      cases qkv <;> simp_all [Except.map]
  · simp [Crypto.Sign, prepareSign, hpval, bind, Except.bind]
  · simp [Crypto.Verify, prepareVerify, hqval, bind, Except.bind]

/-- Witness for C10 at a concrete input: an RSA-tagged private key whose
value is a DSA private key, and a DSA-tagged public key whose value is an
RSA public key. -/
theorem incremental_skips_validation_witness :
    Signer.Sign (⟨5, "sha256", [], [1]⟩ : Signer)
        ⟨"RSA", .dsaPriv ⟨⟨⟨0, 0, 0⟩, 5⟩, 7⟩⟩ "binary" 0
      = .error .typeAssertPanic
    ∧ Verifier.Verify (⟨5, "sha256", [], [1]⟩ : Verifier)
        ⟨"DSA", .rsaPub ⟨3233, 17⟩⟩ (.bytes [9]) = .error .typeAssertPanic
    ∧ Crypto.Sign ⟨"RSA", .dsaPriv ⟨⟨⟨0, 0, 0⟩, 5⟩, 7⟩⟩ "sha256"
        (.bytes [1]) "binary" [] 0
      = .error (.goError "invalid RSA private key")
    ∧ Crypto.Verify ⟨"DSA", .rsaPub ⟨3233, 17⟩⟩ "sha256" (.bytes [1])
        (.bytes [9]) [] = .error (.goError "invalid DSA public key") :=
  incremental_skips_validation ⟨"RSA", .dsaPriv ⟨⟨⟨0, 0, 0⟩, 5⟩, 7⟩⟩
    ⟨"DSA", .rsaPub ⟨3233, 17⟩⟩ ⟨5, "sha256", [], [1]⟩
    ⟨5, "sha256", [], [1]⟩ "binary" 0 [9] "sha256" (.bytes [1]) []
    (.goError "invalid RSA private key") (.goError "invalid DSA public key")
    (Or.inl rfl) rfl (Or.inr (Or.inl rfl)) rfl

end k6
